import Mathlib

/-!
Verification of the edge-device console's streaming/telemetry pipeline.

This file gives a shallow embedding of the core data structures and
operations of the console — the latency ring buffer and statistics
snapshot of the live view (`processFrame`), the streaming scheduler
(`startStream` and its interval tick), the bounded detection-event store
(`handleDetection`), the detection filter (`filteredDetections`), the
overlay renderer (`drawBoundingBoxes`) and the health poller
(`pollHealth`) — and proves the specified properties about them.

JavaScript numbers are modelled as rationals (`ℚ`); a JavaScript
division whose divisor is zero produces the non-finite value `NaN`,
modelled here by `Option ℚ` with `none` standing for the non-numeric
result.
-/

/-- Division as JavaScript performs it on the metrics path: a zero
divisor yields a non-finite result (`0/0` is `NaN`), modelled as
`none`; otherwise the exact quotient. -/
def jsDiv (a b : ℚ) : Option ℚ :=
  if b = 0 then none else some (a / b)

/-- The latency ring buffer update of `processFrame`:
`latencyHistoryRef.current.push(latency); if (length > 60) shift()`.
The sample is appended and, when the buffer then holds more than 60
samples, the oldest (front) sample is removed. -/
def recordLatency (buf : List ℚ) (ms : ℚ) : List ℚ :=
  if 60 < (buf ++ [ms]).length then (buf ++ [ms]).tail else buf ++ [ms]

/-- The latency history obtained by recording a whole session's samples
in order, starting from the empty buffer. -/
def latencyHistoryAfter (samples : List ℚ) : List ℚ :=
  samples.foldl recordLatency []

/-- The average-latency computation of the stats snapshot:
`reduce((a, b) => a + b, 0) / length`, which is `NaN` (`none`) on an
empty buffer. -/
def avgLatency (buf : List ℚ) : Option ℚ :=
  jsDiv (buf.foldl (fun a b => a + b) 0) (buf.length : ℚ)

/-- The ascending stable sort `sort((a, b) => a - b)` applied to the
latency buffer before taking the percentile. -/
def sortedLatencies (buf : List ℚ) : List ℚ :=
  buf.insertionSort (· ≤ ·)

/-- The percentile index `Math.floor(sortedLatencies.length * 0.95)`. -/
def p95Index (n : ℕ) : ℕ :=
  Nat.floor ((n : ℚ) * (95 / 100))

/-- JavaScript `x || 0` applied to an optional number: a missing
(out-of-range) element and the falsy number `0` both collapse to `0`. -/
def jsOrZero (v : Option ℚ) : ℚ :=
  match v with
  | some x => if x = 0 then 0 else x
  | none => 0

/-- The p95 latency of the stats snapshot:
`sortedLatencies[Math.floor(sortedLatencies.length * 0.95)] || 0`. -/
def p95Latency (buf : List ℚ) : ℚ :=
  jsOrZero ((sortedLatencies buf)[p95Index (sortedLatencies buf).length]?)

/-- The 60-sample ascending demonstration buffer `[10, 20, ..., 600]`. -/
def demoLatencyBuffer : List ℚ :=
  (List.range 60).map (fun i => ((10 * (i + 1) : ℕ) : ℚ))

lemma recordLatency_small {buf : List ℚ} (ms : ℚ) (h : buf.length < 60) :
    recordLatency buf ms = buf ++ [ms] := by
  unfold recordLatency
  rw [if_neg]
  simp only [List.length_append, List.length_singleton]
  omega

lemma recordLatency_full {buf : List ℚ} (ms : ℚ) (h : buf.length = 60) :
    recordLatency buf ms = buf.tail ++ [ms] := by
  unfold recordLatency
  rw [if_pos (by simp only [List.length_append, List.length_singleton]; omega)]
  cases buf with
  | nil => simp at h
  | cons b t => simp

lemma foldl_recordLatency_eq (samples : List ℚ) :
    ∀ buf : List ℚ, buf.length ≤ 60 →
      samples.foldl recordLatency buf
        = (buf ++ samples).drop (buf.length + samples.length - 60) := by
  induction samples with
  | nil =>
      intro buf h
      simp only [List.foldl_nil, List.append_nil, List.length_nil, Nat.add_zero]
      rw [Nat.sub_eq_zero_of_le h, List.drop_zero]
  | cons a s ih =>
      intro buf h
      rw [List.foldl_cons]
      rcases Nat.lt_or_ge buf.length 60 with hlt | hge
      · rw [recordLatency_small a hlt,
          ih (buf ++ [a]) (by simp only [List.length_append, List.length_singleton]; omega)]
        rw [List.append_assoc, List.singleton_append]
        congr 1
        simp only [List.length_append, List.length_singleton, List.length_cons,
          List.length_nil]
        omega
      · have heq : buf.length = 60 := Nat.le_antisymm h hge
        cases buf with
        | nil => simp at heq
        | cons b t =>
            have ht : t.length = 59 := by
              simp only [List.length_cons] at heq
              omega
            rw [recordLatency_full a heq]
            simp only [List.tail_cons]
            rw [ih (t ++ [a])
              (by simp only [List.length_append, List.length_singleton, ht]; omega)]
            rw [List.append_assoc, List.singleton_append, List.cons_append]
            have h1 : (t ++ [a]).length + s.length - 60 = s.length := by
              simp only [List.length_append, List.length_singleton, ht]
              omega
            have h2 : (b :: t).length + (a :: s).length - 60 = s.length + 1 := by
              simp only [List.length_cons, ht]
              omega
            rw [h1, h2, List.drop_succ_cons]

lemma latencyHistoryAfter_eq (samples : List ℚ) :
    latencyHistoryAfter samples = samples.drop (samples.length - 60) := by
  unfold latencyHistoryAfter
  rw [foldl_recordLatency_eq samples [] (by simp)]
  simp

lemma foldl_add_sum (l : List ℚ) : l.foldl (fun a b => a + b) 0 = l.sum := by
  simp [List.sum_eq_foldl]

lemma p95Index_eq (n : ℕ) : p95Index n = n * 95 / 100 := by
  unfold p95Index
  have h : (n : ℚ) * (95 / 100) = ((n * 95 : ℕ) : ℚ) / ((100 : ℕ) : ℚ) := by
    push_cast
    ring
  rw [h, Nat.floor_div_nat, Nat.floor_natCast]

lemma jsOrZero_some (x : ℚ) : jsOrZero (some x) = x := by
  by_cases hx : x = 0 <;> simp [jsOrZero, hx]

/-- Claim C1: for every sequence of latency samples recorded during a
session, the buffer holds exactly the last at-most-60 samples (never
more than 60), recording into a full buffer evicts the oldest sample
first-in-first-out, and the reported average latency is the arithmetic
mean of those at-most-60 retained samples. -/
theorem latency_ring_buffer_spec :
    (∀ samples : List ℚ, (latencyHistoryAfter samples).length ≤ 60) ∧
    (∀ samples : List ℚ,
      latencyHistoryAfter samples = samples.drop (samples.length - 60)) ∧
    (∀ (buf : List ℚ) (ms : ℚ), buf.length = 60 →
      recordLatency buf ms = buf.tail ++ [ms]) ∧
    (∀ samples : List ℚ, samples ≠ [] →
      avgLatency (latencyHistoryAfter samples) =
        some ((samples.drop (samples.length - 60)).sum /
          ((samples.drop (samples.length - 60)).length : ℚ))) := by
  refine ⟨?_, latencyHistoryAfter_eq, fun buf ms h => recordLatency_full ms h, ?_⟩
  · intro samples
    rw [latencyHistoryAfter_eq, List.length_drop]
    omega
  · intro samples hne
    have hpos : 0 < samples.length := List.length_pos.mpr hne
    rw [latencyHistoryAfter_eq]
    unfold avgLatency jsDiv
    rw [foldl_add_sum]
    rw [if_neg (by rw [Nat.cast_eq_zero, List.length_drop]; omega)]

/-- Witness for C1: recording into a full 60-sample buffer evicts the
oldest sample, and the reported average over the session `[1, 2, 3]` is
the mean of the retained samples. -/
theorem latency_ring_buffer_witness :
    recordLatency (List.replicate 60 (1 : ℚ)) 7
        = (List.replicate 60 (1 : ℚ)).tail ++ [7] ∧
    avgLatency (latencyHistoryAfter [1, 2, 3]) =
      some ((([1, 2, 3] : List ℚ).drop (([1, 2, 3] : List ℚ).length - 60)).sum /
        ((([1, 2, 3] : List ℚ).drop (([1, 2, 3] : List ℚ).length - 60)).length : ℚ)) :=
  ⟨latency_ring_buffer_spec.2.2.1 (List.replicate 60 (1 : ℚ)) 7 (by simp),
   latency_ring_buffer_spec.2.2.2 [1, 2, 3] (by simp)⟩

/-- Counterexample for C4: on an empty latency buffer the snapshot's
average latency is the `0 / 0` division, which is `NaN` (`none`) rather
than the zero the claim requires. -/
theorem empty_avg_counterexample :
    avgLatency ([] : List ℚ) ≠ some 0 ∧ avgLatency ([] : List ℚ) = none := by
  constructor <;> decide

/-- Claim C4 (amended): on an empty latency buffer the snapshot yields
zero for `p95Latency` and no fault is raised, but `avgLatency`
evaluates `0 / 0` and is `NaN` (non-numeric) rather than zero; since
`processFrame` computes the snapshot only after recording the cycle's
latency sample, the buffer is never empty at snapshot time and the
reported average is always numeric. -/
theorem empty_snapshot_amended :
    p95Latency ([] : List ℚ) = 0 ∧
    avgLatency ([] : List ℚ) = none ∧
    ∀ (buf : List ℚ) (ms : ℚ), (avgLatency (recordLatency buf ms)).isSome := by
  refine ⟨by decide, by decide, ?_⟩
  intro buf ms
  have hne : (recordLatency buf ms).length ≠ 0 := by
    unfold recordLatency
    split
    · rename_i hcond
      simp only [List.length_append, List.length_singleton] at hcond
      simp only [List.length_tail, List.length_append, List.length_singleton]
      omega
    · simp only [List.length_append, List.length_singleton]
      omega
  unfold avgLatency jsDiv
  rw [if_neg (by rw [Nat.cast_eq_zero]; exact hne)]
  rfl

/-- Claim C5: for every non-empty latency buffer the reported p95 is
the nearest-rank percentile — the element at index
`floor(0.95 * length)` of the buffer sorted ascending — and on the
buffer `[10, 20, ..., 600]` of 60 ascending values it is 580, the value
at sorted index 57. -/
theorem p95_nearest_rank :
    (∀ buf : List ℚ, buf ≠ [] →
      ∃ v, (sortedLatencies buf)[p95Index buf.length]? = some v ∧
        p95Latency buf = v) ∧
    p95Latency demoLatencyBuffer = 580 := by
  constructor
  · intro buf hne
    have hlen : (sortedLatencies buf).length = buf.length :=
      List.length_insertionSort _ _
    have hpos : 0 < buf.length := List.length_pos.mpr hne
    have hidx : p95Index buf.length < buf.length := by
      rw [p95Index_eq, Nat.div_lt_iff_lt_mul (by norm_num)]
      omega
    have hidx2 : p95Index buf.length < (sortedLatencies buf).length := by
      rw [hlen]
      exact hidx
    refine ⟨(sortedLatencies buf)[p95Index buf.length],
      List.getElem?_eq_getElem hidx2, ?_⟩
    unfold p95Latency
    rw [hlen, List.getElem?_eq_getElem hidx2, jsOrZero_some]
  · have hidx : p95Index (sortedLatencies demoLatencyBuffer).length = 57 := by
      rw [p95Index_eq]
      decide
    unfold p95Latency
    rw [hidx]
    decide

/-- Witness for C5: the nearest-rank characterization applied to the
concrete one-element buffer `[7]`. -/
theorem p95_nearest_rank_witness :
    ∃ v, (sortedLatencies [(7 : ℚ)])[p95Index ([(7 : ℚ)] : List ℚ).length]? = some v ∧
      p95Latency [(7 : ℚ)] = v :=
  p95_nearest_rank.1 [(7 : ℚ)] (by decide)

/-- A detection bounding box as in `lib/types.ts`: a label, a
confidence in `[0, 1]`, and corners in source-image pixel space. -/
structure BoundingBox where
  label : String
  confidence : ℚ
  x_min : ℚ
  y_min : ℚ
  x_max : ℚ
  y_max : ℚ
deriving DecidableEq

/-- The metadata carried by an inference response and copied into each
detection event (`lib/types.ts`). -/
structure DetectionMetadata where
  model_path : Option String
  detection_count : ℕ
  inference_ms : ℚ
  note : Option String
deriving DecidableEq

/-- A detection event as in `lib/types.ts`; timestamps are epoch
milliseconds. -/
structure DetectionEvent where
  id : String
  timestamp : ℕ
  detections : List BoundingBox
  thumbnail : Option String
  metadata : DetectionMetadata
deriving DecidableEq

/-- The event-store update `handleDetection` of `app/page.tsx`:
`setDetectionEvents((prev) => [event, ...prev].slice(0, 50))` — the new
event is prepended and the list is truncated to its first 50 entries. -/
def handleDetection (event : DetectionEvent) (prev : List DetectionEvent) :
    List DetectionEvent :=
  (event :: prev).take 50

/-- Claim C3: the detection event store never holds more than 50
events; a new event is prepended (most-recent-first), and appending to
a store already holding 50 evicts the oldest event — the last in the
most-recent-first order. -/
theorem detection_store_capped :
    (∀ (e : DetectionEvent) (prev : List DetectionEvent),
      (handleDetection e prev).length ≤ 50) ∧
    (∀ (e : DetectionEvent) (prev : List DetectionEvent), prev.length < 50 →
      handleDetection e prev = e :: prev) ∧
    (∀ (e : DetectionEvent) (prev : List DetectionEvent), prev.length = 50 →
      handleDetection e prev = e :: prev.dropLast) := by
  refine ⟨?_, ?_, ?_⟩
  · intro e prev
    unfold handleDetection
    rw [List.length_take]
    omega
  · intro e prev h
    unfold handleDetection
    exact List.take_of_length_le (by simp only [List.length_cons]; omega)
  · intro e prev h
    unfold handleDetection
    rw [List.dropLast_eq_take, h]
    rfl

/-- A fixed placeholder event used to build concrete stores in
witnesses. -/
def demoEvent : DetectionEvent :=
  { id := "demo"
    timestamp := 0
    detections := []
    thumbnail := none
    metadata :=
      { model_path := none, detection_count := 0, inference_ms := 1, note := none } }

/-- Witness for C3: appending to a concrete store of 50 events prepends
the new event and drops the oldest one. -/
theorem detection_store_capped_witness :
    handleDetection demoEvent (List.replicate 50 demoEvent)
      = demoEvent :: (List.replicate 50 demoEvent).dropLast :=
  detection_store_capped.2.2 demoEvent (List.replicate 50 demoEvent) (by simp)

/-- The per-event predicate of `filteredDetections` in
`components/detections-list.tsx`: the event passes when some contained
box's label matches the selected label (or the filter is set to all
labels) and some contained box's confidence reaches
`minConfidence / 100`. -/
def eventMatches (filterLabel : String) (minConfidence : ℚ)
    (event : DetectionEvent) : Bool :=
  let hasMatchingLabel :=
    filterLabel == "all" || event.detections.any fun d => d.label == filterLabel
  let hasMinConfidence :=
    event.detections.any fun d => decide (minConfidence / 100 ≤ d.confidence)
  hasMatchingLabel && hasMinConfidence

/-- The non-destructive filter over the detection event store
(`components/detections-list.tsx`). -/
def filteredDetections (filterLabel : String) (minConfidence : ℚ)
    (detections : List DetectionEvent) : List DetectionEvent :=
  detections.filter (eventMatches filterLabel minConfidence)

/-- A demonstration event holding a single car box at confidence 0.9. -/
def demoEventCar09 : DetectionEvent :=
  { id := "e1"
    timestamp := 1
    detections :=
      [{ label := "car", confidence := 9 / 10,
         x_min := 0, y_min := 0, x_max := 1, y_max := 1 }]
    thumbnail := none
    metadata :=
      { model_path := none, detection_count := 1, inference_ms := 12, note := none } }

/-- A demonstration event holding a single dog box at confidence 0.4. -/
def demoEventDog04 : DetectionEvent :=
  { id := "e2"
    timestamp := 2
    detections :=
      [{ label := "dog", confidence := 4 / 10,
         x_min := 0, y_min := 0, x_max := 1, y_max := 1 }]
    thumbnail := none
    metadata :=
      { model_path := none, detection_count := 1, inference_ms := 12, note := none } }

/-- A demonstration event holding a single car box at confidence 0.3. -/
def demoEventCar03 : DetectionEvent :=
  { id := "e3"
    timestamp := 3
    detections :=
      [{ label := "car", confidence := 3 / 10,
         x_min := 0, y_min := 0, x_max := 1, y_max := 1 }]
    thumbnail := none
    metadata :=
      { model_path := none, detection_count := 1, inference_ms := 12, note := none } }

/-- Claim C6: filtering the store returns exactly the events with at
least one box matching the label filter (or any label when the filter
is the all-labels value) and at least one box — not necessarily the
same one — with confidence at least `minConfidence / 100`; the result
is a sublist of the store (the store itself is untouched), and on the
events car-0.9, dog-0.4, car-0.3 the filter for label car at 50 percent
returns only the first event. -/
theorem filter_characterization :
    (∀ (lbl : String) (minC : ℚ) (evs : List DetectionEvent),
      (filteredDetections lbl minC evs).Sublist evs) ∧
    (∀ (lbl : String) (minC : ℚ) (evs : List DetectionEvent) (e : DetectionEvent),
      e ∈ filteredDetections lbl minC evs ↔
        e ∈ evs ∧ (lbl = "all" ∨ ∃ d ∈ e.detections, d.label = lbl) ∧
          ∃ d ∈ e.detections, minC / 100 ≤ d.confidence) ∧
    filteredDetections "car" 50 [demoEventCar09, demoEventDog04, demoEventCar03]
      = [demoEventCar09] := by
  refine ⟨?_, ?_, ?_⟩
  · intro lbl minC evs
    exact List.filter_sublist evs
  · intro lbl minC evs e
    unfold filteredDetections
    rw [List.mem_filter]
    simp only [eventMatches, Bool.and_eq_true, Bool.or_eq_true, beq_iff_eq,
      List.any_eq_true, decide_eq_true_eq]
  · have h1 : eventMatches "car" 50 demoEventCar09 = true := by
      simp only [eventMatches, demoEventCar09, List.any_cons, List.any_nil,
        Bool.or_false, Bool.and_eq_true, Bool.or_eq_true, beq_iff_eq,
        decide_eq_true_eq]
      norm_num
    have h2 : eventMatches "car" 50 demoEventDog04 = false := by
      simp only [eventMatches, demoEventDog04, List.any_cons, List.any_nil,
        Bool.or_false]
      norm_num
    have h3 : eventMatches "car" 50 demoEventCar03 = false := by
      simp only [eventMatches, demoEventCar03, List.any_cons, List.any_nil,
        Bool.or_false]
      norm_num
    unfold filteredDetections
    simp [List.filter_cons, h1, h2, h3]

/-- The observable state of the live view around the streaming
scheduler (`LiveView` in the live-view component): whether the stream
is on, whether a capture→infer→record→paint cycle is in flight
(`isProcessing`), the interval handle held in `streamIntervalRef` (with
its period in milliseconds), the latency history, the frame counter,
the cumulative number of `api.runInference` calls issued, and the
number of destructive toasts reported. -/
structure LiveState where
  isStreaming : Bool
  isProcessing : Bool
  intervalHandle : Option ℚ
  latencyHistory : List ℚ
  frameCount : ℕ
  inferCalls : ℕ
  toasts : ℕ
deriving DecidableEq

/-- The live view before any interaction: stopped, idle, no timer, no
history. -/
def initialLiveState : LiveState :=
  { isStreaming := false
    isProcessing := false
    intervalHandle := none
    latencyHistory := []
    frameCount := 0
    inferCalls := 0
    toasts := 0 }

/-- The synchronous prefix of `processFrame`: when the model is not
loaded it reports a destructive toast and returns without side effects;
otherwise it sets `isProcessing` and issues the `api.runInference`
call, which is then in flight. -/
def processFrameStart (isModelLoaded : Bool) (s : LiveState) : LiveState :=
  if !isModelLoaded then { s with toasts := s.toasts + 1 }
  else { s with isProcessing := true, inferCalls := s.inferCalls + 1 }

/-- The completion of an in-flight cycle (the code after the awaited
inference response, through the `finally` that clears `isProcessing`):
the measured latency is recorded, the frame counter advances, and the
cycle is no longer in flight. -/
def processFrameComplete (latency : ℚ) (s : LiveState) : LiveState :=
  { s with
      isProcessing := false
      latencyHistory := recordLatency s.latencyHistory latency
      frameCount := s.frameCount + 1 }

/-- One firing of the timer installed by `startStream`:
`if (!isProcessing) { processFrame() }` — a tick arriving while a cycle
is in flight does nothing at all. -/
def schedulerTick (isModelLoaded : Bool) (s : LiveState) : LiveState :=
  if !s.isProcessing then processFrameStart isModelLoaded s else s

/-- The `startStream` handler: when the model is not loaded it reports
a destructive toast and returns before creating any timer; otherwise it
marks the stream as running and installs the interval timer with period
`1000 / fps` milliseconds. -/
def startStream (isModelLoaded : Bool) (fps : ℚ) (s : LiveState) : LiveState :=
  if !isModelLoaded then { s with toasts := s.toasts + 1 }
  else { s with isStreaming := true, intervalHandle := some (1000 / fps) }

/-- Claim C2: a scheduler tick that fires while the previous cycle is
still in flight is dropped — the state is left entirely unchanged, so
no inference call is issued and nothing is queued — and concretely,
after starting the stream and letting two ticks fire with the first
inference unresolved, exactly one inference call has been made, then a
second one once the first resolves and the next tick fires. -/
theorem scheduler_single_flight :
    (∀ (isModelLoaded : Bool) (s : LiveState), s.isProcessing = true →
      schedulerTick isModelLoaded s = s) ∧
    (schedulerTick true
      (schedulerTick true (startStream true 2 initialLiveState))).inferCalls = 1 ∧
    (schedulerTick true (processFrameComplete 5
      (schedulerTick true
        (schedulerTick true (startStream true 2 initialLiveState))))).inferCalls = 2 := by
  refine ⟨?_, rfl, rfl⟩
  intro isModelLoaded s h
  unfold schedulerTick
  rw [h]
  rfl

/-- A live-view state with one cycle in flight, used to witness the
tick-dropping rule. -/
def busyLiveState : LiveState :=
  { isStreaming := true
    isProcessing := true
    intervalHandle := some 500
    latencyHistory := []
    frameCount := 1
    inferCalls := 1
    toasts := 0 }

/-- Witness for C2: a tick on a concrete busy state is dropped
unchanged. -/
theorem scheduler_single_flight_witness :
    schedulerTick true busyLiveState = busyLiveState :=
  scheduler_single_flight.1 true busyLiveState rfl

/-- Claim C7: starting the stream while the remote model is reported
not loaded reports a precondition-failure toast and is otherwise a
no-op — the state stays not streaming, no timer is created, no
inference call is issued and no cycle begins. -/
theorem startStream_precondition (fps : ℚ) (s : LiveState)
    (h1 : s.isStreaming = false) (h2 : s.intervalHandle = none) :
    (startStream false fps s).isStreaming = false ∧
    (startStream false fps s).intervalHandle = none ∧
    (startStream false fps s).inferCalls = s.inferCalls ∧
    (startStream false fps s).isProcessing = s.isProcessing ∧
    (startStream false fps s).toasts = s.toasts + 1 := by
  unfold startStream
  simp [h1, h2]

/-- Witness for C7: starting with the model not loaded from the initial
state leaves it stopped and timerless, with one reported failure. -/
theorem startStream_precondition_witness :
    (startStream false 2 initialLiveState).isStreaming = false ∧
    (startStream false 2 initialLiveState).intervalHandle = none ∧
    (startStream false 2 initialLiveState).inferCalls = initialLiveState.inferCalls ∧
    (startStream false 2 initialLiveState).isProcessing = initialLiveState.isProcessing ∧
    (startStream false 2 initialLiveState).toasts = initialLiveState.toasts + 1 :=
  startStream_precondition 2 initialLiveState rfl rfl

/-- A primitive canvas paint operation issued by `drawBoundingBoxes`:
the stroked box rectangle, the filled label background, or the label
text (recorded with the box's label and confidence) at its position. -/
inductive PaintOp where
  | strokeRect (x y w h : ℚ)
  | fillRect (x y w h : ℚ)
  | labelText (label : String) (confidence : ℚ) (x y : ℚ)
deriving DecidableEq

/-- The paint operations one detection contributes in
`drawBoundingBoxes`: a stroked rectangle scaled from image space to
canvas space, a filled label background sized from the measured label
width, and the label text. `measure` stands for
`ctx.measureText(label).width`, an opaque property of the rendering
surface. -/
def boxOps (measure : String → ℚ → ℚ) (scaleX scaleY : ℚ)
    (d : BoundingBox) : List PaintOp :=
  [ PaintOp.strokeRect (d.x_min * scaleX) (d.y_min * scaleY)
      ((d.x_max - d.x_min) * scaleX) ((d.y_max - d.y_min) * scaleY),
    PaintOp.fillRect (d.x_min * scaleX) (d.y_min * scaleY - 16 - 4)
      (measure d.label d.confidence + 8) (16 + 4),
    PaintOp.labelText d.label d.confidence (d.x_min * scaleX + 4)
      (d.y_min * scaleY - 6) ]

/-- The overlay paint `drawBoundingBoxes`: a surface is the list of
operations currently painted on it since its last clear. When the
2D context is unavailable or the overlay toggle is off, it returns at
once — before the `clearRect` — leaving the surface as it was;
otherwise it clears the surface and paints each detection's box and
label. -/
def drawBoundingBoxes (measure : String → ℚ → ℚ) (ctxOk showOverlay : Bool)
    (surface : List PaintOp) (canvasW canvasH imageW imageH : ℚ)
    (detections : List BoundingBox) : List PaintOp :=
  if !ctxOk || !showOverlay then surface
  else
    detections.foldl
      (fun acc d => acc ++ boxOps measure (canvasW / imageW) (canvasH / imageH) d) []

/-- A stale paint operation left on the surface by an earlier frame. -/
def stalePaint : PaintOp :=
  PaintOp.strokeRect 1 2 3 4

/-- Counterexample for C8: with the overlay disabled,
`drawBoundingBoxes` returns before clearing, so a surface holding a
stale operation keeps it — the call does not clear the prior paint as
the claim requires. -/
theorem overlay_disabled_counterexample :
    drawBoundingBoxes (fun _ _ => 0) true false [stalePaint] 400 200 200 100 []
        = [stalePaint] ∧
    ([stalePaint] : List PaintOp) ≠ [] := by
  constructor
  · rfl
  · intro h
    simp at h

/-- Claim C8 (amended): when the overlay display is disabled (or no 2D
context is available) the paint operation returns without drawing any
boxes or labels and without clearing — the surface is left exactly as
it was; on every call with the overlay enabled it clears the prior
paint before drawing, so the resulting surface holds only the current
call's operations and overlays from earlier frames never accumulate. -/
theorem overlay_paint_amended :
    (∀ (measure : String → ℚ → ℚ) (ctxOk : Bool) (surface : List PaintOp)
        (cw ch iw ih : ℚ) (dets : List BoundingBox),
      drawBoundingBoxes measure ctxOk false surface cw ch iw ih dets = surface) ∧
    (∀ (measure : String → ℚ → ℚ) (s1 s2 : List PaintOp)
        (cw ch iw ih : ℚ) (dets : List BoundingBox),
      drawBoundingBoxes measure true true s1 cw ch iw ih dets
        = drawBoundingBoxes measure true true s2 cw ch iw ih dets) ∧
    (∀ (measure : String → ℚ → ℚ) (surface : List PaintOp) (cw ch iw ih : ℚ),
      drawBoundingBoxes measure true true surface cw ch iw ih [] = []) := by
  refine ⟨?_, ?_, ?_⟩
  · intro measure ctxOk surface cw ch iw ih dets
    unfold drawBoundingBoxes
    simp
  · intro measure s1 s2 cw ch iw ih dets
    rfl
  · intro measure surface cw ch iw ih
    rfl

/-- The camera block of a health status (`lib/types.ts`). -/
structure CameraInfo where
  available : Bool
  using_mock : Bool
  width : ℕ
  height : ℕ
  fps : ℕ
deriving DecidableEq

/-- The model block of a health status (`lib/types.ts`). -/
structure ModelInfo where
  loaded : Bool
  path : Option String
  autoload : Option Bool
deriving DecidableEq

/-- A device health status (`lib/types.ts`); `status` is the string
union of ok and degraded. -/
structure HealthStatus where
  status : String
  camera : CameraInfo
  model : ModelInfo
deriving DecidableEq

/-- One round of the health poller in `app/page.tsx`: on a successful
poll the fetched status replaces the held one; on failure the held
status, when present, has its `status` field coerced to degraded in
place — `setHealth((prev) => (prev ? { ...prev, status: "degraded" } :
null))` — and stays absent otherwise. -/
def pollHealthStep (result : Option HealthStatus)
    (prev : Option HealthStatus) : Option HealthStatus :=
  match result with
  | some healthData => some healthData
  | none =>
      match prev with
      | some p => some { p with status := "degraded" }
      | none => none

/-- Claim C9: when a health poll fails while a previously fetched
status is held, the held status's `status` field becomes degraded while
every other field — all camera and model subfields — keeps its
last-known value; the status is never discarded or nulled on failure
after a first success. -/
theorem health_degrade_in_place :
    ∀ h : HealthStatus, ∃ h2 : HealthStatus,
      pollHealthStep none (some h) = some h2 ∧
      h2.status = "degraded" ∧
      h2.camera.available = h.camera.available ∧
      h2.camera.using_mock = h.camera.using_mock ∧
      h2.camera.width = h.camera.width ∧
      h2.camera.height = h.camera.height ∧
      h2.camera.fps = h.camera.fps ∧
      h2.model.loaded = h.model.loaded ∧
      h2.model.path = h.model.path ∧
      h2.model.autoload = h.model.autoload := by
  intro h
  exact ⟨{ h with status := "degraded" },
    rfl, rfl, rfl, rfl, rfl, rfl, rfl, rfl, rfl, rfl⟩

/-- Claim C10: a health-poll failure before any poll has succeeded
leaves the held status absent — no placeholder degraded status is
fabricated — and the next successful poll installs the fetched status
as usual. -/
theorem health_no_fabrication :
    pollHealthStep none none = none ∧
    ∀ h : HealthStatus, pollHealthStep (some h) none = some h := by
  exact ⟨rfl, fun h => rfl⟩
